import Mathlib

/-!
Verification of the ATAK protobuf encoder in
`src/main/resources/meshtastic_sender.py` (class `ATAKProtobuf`).

Modelling conventions:
* Python `bytes` values are `List Nat` (each element < 256 by construction).
* Python `str` is Lean `String`; Python `len` on a `str` counts code
  points, which is `String.length`.
* Python numeric-string conversion: `float(s)` and `int(s)` are modelled by
  `pyFloat` and `pyIntStr` on plain decimal literals; strings outside that
  fragment are treated as non-numeric.  Python float arithmetic is modelled
  exactly over `ℚ`.
* `xml.etree.ElementTree.fromstring` is an external library call; its
  outcome is modelled as `Option CotDoc` (`none` = the parse raised), where
  `CotDoc` records exactly the elements and attributes the encoder reads.
* Python exceptions are modelled with `Except Unit`; an `Except.error`
  result of a modelled function means the Python code raises there.
-/

namespace MeshtasticSender

/-- Truthiness of a Python `Optional[str]`: `None` and `""` are falsy. -/
def truthy : Option String → Bool
  | none => false
  | some s => s ≠ ""

/-- Value of a decimal digit character, `none` on anything else. -/
def digitVal (c : Char) : Option Nat :=
  if c.isDigit then some (c.toNat - 48) else none

/-- Read a run of decimal digits as a number; fails on any non-digit.
Returns `some 0` on the empty list — callers check emptiness separately. -/
def parseNatDigits (cs : List Char) : Option Nat :=
  cs.foldl (fun acc c =>
    match acc, digitVal c with
    | some a, some d => some (a * 10 + d)
    | _, _ => none) (some 0)

/-- Model of Python `float(s)` restricted to plain decimal literals
`[+-]digits[.digits]` with at least one digit.  Strings outside this
fragment (exponents, `inf`, `nan`, surrounding whitespace, underscores)
are outside the model and treated as non-numeric.  The result is the
exact rational value of the literal. -/
def pyFloat (s : String) : Option ℚ :=
  let signAndRest : ℚ × List Char :=
    match s.data with
    | '-' :: rest => (-1, rest)
    | '+' :: rest => (1, rest)
    | cs => (1, cs)
  let sign := signAndRest.1
  let cs := signAndRest.2
  let intPart := cs.takeWhile (fun c => c ≠ '.')
  match cs.dropWhile (fun c => c ≠ '.') with
  | [] =>
    if intPart.isEmpty then none
    else (parseNatDigits intPart).map (fun n => sign * n)
  | _ :: fracPart =>
    if intPart.isEmpty && fracPart.isEmpty then none
    else
      match parseNatDigits intPart, parseNatDigits fracPart with
      | some i, some f =>
        some (sign * ((i : ℚ) + (f : ℚ) / (10 : ℚ) ^ fracPart.length))
      | _, _ => none

/-- Model of Python `int(s)` restricted to `[+-]digits`; other accepted
forms (whitespace, underscores) are outside the model. -/
def pyIntStr (s : String) : Option Int :=
  let signAndRest : Int × List Char :=
    match s.data with
    | '-' :: rest => (-1, rest)
    | '+' :: rest => (1, rest)
    | cs => (1, cs)
  if signAndRest.2.isEmpty then none
  else (parseNatDigits signAndRest.2).map (fun n => signAndRest.1 * n)

/-- Python `int(x)` on a number: truncation toward zero.  `Int.tdiv` is
Lean's truncating division, matching Python `int()` on the exact value. -/
def ratTrunc (q : ℚ) : Int := Int.tdiv q.num (q.den : Int)

/-- Loop of `ATAKProtobuf._encode_varint`, driven by a fuel counter so
that the definition is structurally recursive (and hence computable by
the kernel); `encodeVarint` supplies enough fuel, and
`encodeVarint_unfold` below recovers the literal loop equation. -/
def encodeVarintAuxN : Nat → Int → List Nat
  | 0, value => [(value % 128).toNat]
  | fuel + 1, value =>
    if 127 < value then
      ((value % 128).toNat + 128) :: encodeVarintAuxN fuel (value / 128)
    else
      [(value % 128).toNat]

/-- Model of `ATAKProtobuf._encode_varint`.  Each loop iteration appends
`(value & 0x7F) | 0x80` — the low seven bits are < 128, so the OR is
addition of 128 — and shifts by 7 (`value / 128`; the loop body only runs
for `value > 127`, where floor, truncating and arithmetic-shift division
agree). -/
def encodeVarint (value : Int) : List Nat :=
  encodeVarintAuxN value.toNat value

/-- Python `struct.pack('<i', x)`: little-endian two's-complement, 4
bytes.  `struct.error` (x outside the signed 32-bit range) is checked by
the caller `encode_pli` before use. -/
def packInt32LE (x : Int) : List Nat :=
  let u := (x % 4294967296).toNat
  [u % 256, u / 256 % 256, u / 65536 % 256, u / 16777216 % 256]

/-- Little-endian signed 32-bit decode — the inverse used to state the
round-trip property of the fixed32 fields. -/
def unpackInt32LE : List Nat → Int
  | [b0, b1, b2, b3] =>
    let u := b0 + 256 * b1 + 65536 * b2 + 16777216 * b3
    if u < 2147483648 then (u : Int) else (u : Int) - 4294967296
  | _ => 0

/-- UTF-8 encoding of one code point (as in Python `str.encode('utf-8')`). -/
def utf8EncodeCharNat (c : Char) : List Nat :=
  let n := c.toNat
  if n < 128 then [n]
  else if n < 2048 then [192 + n / 64, 128 + n % 64]
  else if n < 65536 then [224 + n / 4096, 128 + n / 64 % 64, 128 + n % 64]
  else [240 + n / 262144, 128 + n / 4096 % 64, 128 + n / 64 % 64, 128 + n % 64]

/-- Python `s.encode('utf-8')` as a byte list. -/
def utf8Bytes (s : String) : List Nat :=
  (s.data.map utf8EncodeCharNat).flatten

/-- Decidable equality for `Except`, used to evaluate the encoder at
concrete inputs. -/
def exceptDecEq {ε α : Type} [DecidableEq ε] [DecidableEq α] :
    DecidableEq (Except ε α) := fun a b =>
  match a, b with
  | Except.ok x, Except.ok y =>
    if h : x = y then isTrue (congrArg Except.ok h)
    else isFalse (fun hh => h (Except.ok.inj hh))
  | Except.error x, Except.error y =>
    if h : x = y then isTrue (congrArg Except.error h)
    else isFalse (fun hh => h (Except.error.inj hh))
  | Except.ok _, Except.error _ => isFalse (fun hh => Except.noConfusion hh)
  | Except.error _, Except.ok _ => isFalse (fun hh => Except.noConfusion hh)

instance {ε α : Type} [DecidableEq ε] [DecidableEq α] :
    DecidableEq (Except ε α) := exceptDecEq

/-- Model of `ATAKProtobuf.encode_pli`.  Returns `none` exactly when
`struct.pack('<i', ·)` would raise `struct.error` (a fixed-point
latitude/longitude outside the signed 32-bit range); that exception
propagates to `encode_full_packet`.  `24`, `32`, `40` are the source's
`3 << 3`, `4 << 3`, `5 << 3` field tags. -/
def encode_pli (lat lon : ℚ) (alt speed course : Int) : Option (List Nat) :=
  let lat_i := ratTrunc (lat * 10000000)
  let lon_i := ratTrunc (lon * 10000000)
  if lat_i < -2147483648 ∨ 2147483647 < lat_i then none
  else if lon_i < -2147483648 ∨ 2147483647 < lon_i then none
  else
    let pli_msg : List Nat :=
      [0x0d] ++ packInt32LE lat_i
        ++ [0x15] ++ packInt32LE lon_i
        ++ (if alt ≠ 0 then encodeVarint 24 ++ encodeVarint alt else [])
        ++ (if 0 < speed then encodeVarint 32 ++ encodeVarint speed else [])
        ++ (if 0 < course then encodeVarint 40 ++ encodeVarint course else [])
    some ([0x2a] ++ encodeVarint (pli_msg.length : Int) ++ pli_msg)

/-- Model of `ATAKProtobuf.encode_geochat`.  Note: the length prefixes use Python
`len` on the `str` (code-point count) while the emitted payload is the
UTF-8 encoding of the string. -/
def encode_geochat (message : String) (to_uid : Option String)
    (to_callsign : Option String) : List Nat :=
  let chat_msg : List Nat :=
    ([0x0a] ++ encodeVarint (message.length : Int) ++ utf8Bytes message)
      ++ (if truthy to_uid then
            [0x12] ++ encodeVarint ((to_uid.getD "").length : Int)
              ++ utf8Bytes (to_uid.getD "")
          else [])
      ++ (if truthy to_callsign then
            [0x1a] ++ encodeVarint ((to_callsign.getD "").length : Int)
              ++ utf8Bytes (to_callsign.getD "")
          else [])
  [0x32] ++ encodeVarint (chat_msg.length : Int) ++ chat_msg

/-- Model of `ATAKProtobuf.encode_contact`. -/
def encode_contact (callsign : String) (device_callsign : Option String) :
    List Nat :=
  (if callsign ≠ "" then
    [0x0a] ++ encodeVarint (callsign.length : Int) ++ utf8Bytes callsign
   else [])
    ++ (if truthy device_callsign then
          [0x12] ++ encodeVarint ((device_callsign.getD "").length : Int)
            ++ utf8Bytes (device_callsign.getD "")
        else [])

/-- Model of `ATAKProtobuf.TEAM_COLORS` viewed through `dict.get`. -/
def TEAM_COLORS (s : String) : Option Int :=
  if s = "White" then some 1 else if s = "Yellow" then some 2
  else if s = "Orange" then some 3 else if s = "Magenta" then some 4
  else if s = "Red" then some 5 else if s = "Maroon" then some 6
  else if s = "Purple" then some 7 else if s = "Dark Blue" then some 8
  else if s = "Blue" then some 9 else if s = "Cyan" then some 10
  else if s = "Teal" then some 11 else if s = "Green" then some 12
  else if s = "Dark Green" then some 13 else if s = "Brown" then some 14
  else none

/-- Model of `ATAKProtobuf.MEMBER_ROLES` viewed through `dict.get`. -/
def MEMBER_ROLES (s : String) : Option Int :=
  if s = "Team Member" then some 1 else if s = "Team Lead" then some 2
  else if s = "HQ" then some 3 else if s = "Sniper" then some 4
  else if s = "Medic" then some 5 else if s = "Forward Observer" then some 6
  else if s = "RTO" then some 7 else if s = "K9" then some 8
  else none

/-- Attributes read from the `contact` element. -/
structure ContactElem where
  callsign : Option String
deriving DecidableEq

/-- Attributes read from the `__group` element. -/
structure GroupElem where
  role : Option String
  name : Option String
deriving DecidableEq

/-- Attributes read from the `status` element. -/
structure StatusElem where
  battery : Option String
deriving DecidableEq

/-- Attributes read from the `point` element. -/
structure PointElem where
  lat : Option String
  lon : Option String
  hae : Option String
  le : Option String
deriving DecidableEq

/-- Attributes read from the `track` element. -/
structure TrackElem where
  speed : Option String
  course : Option String
deriving DecidableEq

/-- Text content of the `remarks` element (`None` when empty in ET). -/
structure RemarksElem where
  text : Option String
deriving DecidableEq

/-- Attributes read from the `dest` element. -/
structure DestElem where
  callsign : Option String
deriving DecidableEq

/-- The elements `encode_full_packet` looks up in the parsed CoT document
(the `root.find('.//…')` results; `none` = element absent). -/
structure CotDoc where
  contact : Option ContactElem
  group : Option GroupElem
  status : Option StatusElem
  point : Option PointElem
  track : Option TrackElem
  remarks : Option RemarksElem
  dest : Option DestElem
deriving DecidableEq

/-- Contact block of `encode_full_packet` (source lines 203–212). -/
def contactPart (doc : CotDoc) : List Nat :=
  match doc.contact with
  | none => []
  | some contact_elem =>
    let callsign := contact_elem.callsign.getD ""
    if callsign ≠ "" then
      let contact_data := encode_contact callsign none
      if contact_data ≠ [] then
        [0x12] ++ encodeVarint (contact_data.length : Int) ++ contact_data
      else []
    else []

/-- Group block of `encode_full_packet` (source lines 214–237). -/
def groupPart (doc : CotDoc) : List Nat :=
  match doc.group with
  | none => []
  | some group_elem =>
    let role := group_elem.role.getD "Team Member"
    let team := group_elem.name.getD "Cyan"
    let role_value := (MEMBER_ROLES role).getD 1
    let team_value := (TEAM_COLORS team).getD 10
    let group_msg : List Nat :=
      (if 0 < role_value then [0x08] ++ encodeVarint role_value else [])
        ++ (if 0 < team_value then [0x10] ++ encodeVarint team_value else [])
    if group_msg ≠ [] then
      [0x1a] ++ encodeVarint (group_msg.length : Int) ++ group_msg
    else []

/-- Status block of `encode_full_packet` (source lines 239–254).  The
inner `except ValueError: pass` is the `none` branch of `pyIntStr`. -/
def statusPart (doc : CotDoc) : List Nat :=
  match doc.status with
  | none => []
  | some status_elem =>
    if truthy status_elem.battery then
      match pyIntStr (status_elem.battery.getD "") with
      | some battery_val =>
        let status_msg : List Nat := [0x08] ++ encodeVarint battery_val
        [0x22] ++ encodeVarint (status_msg.length : Int) ++ status_msg
      | none => []
    else []

/-- Model of `int(float(s))`: a `ValueError` from the inner conversion is an
exception reaching the caller. -/
def intFloatE (s : String) : Except Unit Int :=
  match pyFloat s with
  | some q => Except.ok (ratTrunc q)
  | none => Except.error ()

/-- Model of `float(point_elem.get(attr, 0))` for `lat`/`lon`: the default `0` is
used when the attribute is absent; a present non-numeric value raises. -/
def floatAttrE : Option String → Except Unit ℚ
  | none => Except.ok 0
  | some s =>
    match pyFloat s with
    | some q => Except.ok q
    | none => Except.error ()

/-- The altitude extraction (source lines 262–267): `hae` preferred,
`le` as fallback, default `0`; a truthy but non-numeric value raises. -/
def altOf (point_elem : PointElem) : Except Unit Int :=
  if truthy point_elem.hae then intFloatE (point_elem.hae.getD "")
  else if truthy point_elem.le then intFloatE (point_elem.le.getD "")
  else Except.ok 0

/-- The speed extraction from the `track` element (source lines 269–277). -/
def speedOf : Option TrackElem → Except Unit Int
  | none => Except.ok 0
  | some track_elem =>
    if truthy track_elem.speed then intFloatE (track_elem.speed.getD "")
    else Except.ok 0

/-- The course extraction from the `track` element (source lines 269–279). -/
def courseOf : Option TrackElem → Except Unit Int
  | none => Except.ok 0
  | some track_elem =>
    if truthy track_elem.course then intFloatE (track_elem.course.getD "")
    else Except.ok 0

/-- Point/track block of `encode_full_packet` (source lines 256–283).
Any `ValueError` or `struct.error` raised here propagates to the
enclosing `try`. -/
def pliPartE (doc : CotDoc) : Except Unit (List Nat) :=
  match doc.point with
  | none => Except.ok []
  | some point_elem =>
    match floatAttrE point_elem.lat with
    | Except.error e => Except.error e
    | Except.ok lat =>
      match floatAttrE point_elem.lon with
      | Except.error e => Except.error e
      | Except.ok lon =>
        match altOf point_elem with
        | Except.error e => Except.error e
        | Except.ok alt =>
          match speedOf doc.track with
          | Except.error e => Except.error e
          | Except.ok speed =>
            match courseOf doc.track with
            | Except.error e => Except.error e
            | Except.ok course =>
              match encode_pli lat lon alt speed course with
              | some pli_data => Except.ok pli_data
              | none => Except.error ()

/-- Chat block of `encode_full_packet` (source lines 285–299).  The
recipient UID is the never-assigned `to_uid = None`. -/
def chatPart (doc : CotDoc) : List Nat :=
  match doc.remarks with
  | none => []
  | some geochat_elem =>
    if truthy geochat_elem.text then
      let chat_text := geochat_elem.text.getD ""
      let to_uid : Option String := none
      let tocs : Option String :=
        match doc.dest with
        | none => none
        | some dest_elem => dest_elem.callsign
      encode_geochat chat_text to_uid tocs
    else []

/-- Body of the `try` block of `encode_full_packet` after the XML parse
succeeded (source lines 197–301). -/
def bodyE (doc : CotDoc) (compress : Bool) : Except Unit (List Nat) :=
  let msg0 : List Nat := if compress then [0x08, 0x01] else []
  let msg3 := msg0 ++ contactPart doc ++ groupPart doc ++ statusPart doc
  match pliPartE doc with
  | Except.error e => Except.error e
  | Except.ok pli_data => Except.ok (msg3 ++ pli_data ++ chatPart doc)

/-- The `except` branch of `encode_full_packet`:
`return ATAKProtobuf.encode_pli(0.0, 0.0)`. -/
def fallbackResult : Except Unit (List Nat) :=
  match encode_pli 0 0 0 0 0 with
  | some bs => Except.ok bs
  | none => Except.error ()

/-- Model of `ATAKProtobuf.encode_full_packet`.  The outcome of the external
`ET.fromstring` call is the `Option CotDoc` argument (`none` = the parse
raised).  An `Except.error` result would mean an exception escapes the
function. -/
def encode_full_packet (parsed : Option CotDoc) (compress : Bool) :
    Except Unit (List Nat) :=
  match parsed with
  | none => fallbackResult
  | some doc =>
    match bodyE doc compress with
    | Except.ok bs => Except.ok bs
    | Except.error _ => fallbackResult

/-- Base-128 little-endian-group varint decoding, as worded in spec §4.2;
used to state the varint claims. -/
def decodeVarintAux : List Nat → Nat
  | [] => 0
  | b :: bs => b % 128 + 128 * decodeVarintAux bs

/-- The buffer contains a top-level field-5 (PLI) length-delimited
record: tag byte `0x2a`, varint length, body. -/
def hasPliRecord (bs : List Nat) : Prop :=
  ∃ pre body suf,
    bs = pre ++ [0x2a] ++ encodeVarint (body.length : Int) ++ body ++ suf

/-- Spec §4.2 role table, stated independently of the code (for
comparison with `MEMBER_ROLES`): "Unknown role name → defaults to 1". -/
def roleEnumSpec (role : String) : Nat :=
  if role = "Team Member" then 1 else if role = "Team Lead" then 2
  else if role = "HQ" then 3 else if role = "Sniper" then 4
  else if role = "Medic" then 5 else if role = "Forward Observer" then 6
  else if role = "RTO" then 7 else if role = "K9" then 8
  else 1

/-- Spec §4.2 team table, stated independently of the code (for
comparison with `TEAM_COLORS`): "Unknown team name → defaults to 10". -/
def teamEnumSpec (team : String) : Nat :=
  if team = "White" then 1 else if team = "Yellow" then 2
  else if team = "Orange" then 3 else if team = "Magenta" then 4
  else if team = "Red" then 5 else if team = "Maroon" then 6
  else if team = "Purple" then 7 else if team = "Dark Blue" then 8
  else if team = "Blue" then 9 else if team = "Cyan" then 10
  else if team = "Teal" then 11 else if team = "Green" then 12
  else if team = "Dark Green" then 13 else if team = "Brown" then 14
  else 10

/-- A parseable document with none of the searched elements
(e.g. the input string `"<event/>"`). -/
def emptyCot : CotDoc := ⟨none, none, none, none, none, none, none⟩

/-- A parseable document with a contact callsign and a point whose `lat`
attribute is the non-numeric string `"abc"`. -/
def badLatCot : CotDoc :=
  { emptyCot with
    contact := some ⟨some "A"⟩
    point := some ⟨some "abc", some "1", none, none⟩ }

/-- Variant of `badLatCot` with the offending `lat` attribute absent instead. -/
def latAbsentCot : CotDoc :=
  { emptyCot with
    contact := some ⟨some "A"⟩
    point := some ⟨none, some "1", none, none⟩ }

/-- A document whose `status` battery attribute is the non-numeric
string `"full"`, next to an intact contact element. -/
def batteryBadCot : CotDoc :=
  { emptyCot with
    contact := some ⟨some "A"⟩
    status := some ⟨some "full"⟩ }

/-- A document whose point `lon` attribute is the non-numeric `"abc"`. -/
def badLonCot : CotDoc :=
  { emptyCot with point := some ⟨none, some "abc", none, none⟩ }

/-- A document whose point `hae` attribute is the non-numeric `"abc"`. -/
def badHaeCot : CotDoc :=
  { emptyCot with point := some ⟨none, none, some "abc", none⟩ }

/-- A document with no `hae` whose `le` attribute is the non-numeric
`"abc"`. -/
def badLeCot : CotDoc :=
  { emptyCot with point := some ⟨none, none, none, some "abc"⟩ }

/-- A document with a point and a track whose `speed` attribute is the
non-numeric `"abc"`. -/
def badSpeedCot : CotDoc :=
  { emptyCot with
    point := some ⟨none, none, none, none⟩
    track := some ⟨some "abc", none⟩ }

/-- A document with a point and a track whose `course` attribute is the
non-numeric `"abc"`. -/
def badCourseCot : CotDoc :=
  { emptyCot with
    point := some ⟨none, none, none, none⟩
    track := some ⟨none, some "abc"⟩ }

/-- A document carrying all five sub-record sources: contact, group,
status, point and remarks/dest. -/
def fullCot : CotDoc :=
  { contact := some ⟨some "A"⟩
    group := some ⟨some "Team Member", some "Cyan"⟩
    status := some ⟨some "85"⟩
    point := some ⟨none, none, none, none⟩
    track := none
    remarks := some ⟨some "hi"⟩
    dest := none }

/-- A document whose group element carries `role="Sniper" name="Red"`. -/
def sniperRedCot : CotDoc :=
  { emptyCot with group := some ⟨some "Sniper", some "Red"⟩ }

/-- The bytes of the fallback payload `encode_pli(0.0, 0.0)`. -/
def fallbackBytes : List Nat :=
  [0x2a, 0x0a, 0x0d, 0, 0, 0, 0, 0x15, 0, 0, 0, 0]

/-!
## Theorems

Helper lemmas first, then one theorem (with counterexample/witness where
required) per claim C1–C10.
-/

theorem encodeVarintAuxN_not_gt {value : Int} (h : ¬ 127 < value) :
    ∀ fuel, encodeVarintAuxN fuel value = [(value % 128).toNat] := by
  intro fuel
  cases fuel with
  | zero => rfl
  | succ n => simp [encodeVarintAuxN, h]

theorem encodeVarintAuxN_fuel_irrel :
    ∀ fuel₁ fuel₂ : Nat, ∀ value : Int, value.toNat ≤ fuel₁ →
      value.toNat ≤ fuel₂ →
      encodeVarintAuxN fuel₁ value = encodeVarintAuxN fuel₂ value := by
  intro fuel₁
  induction fuel₁ with
  | zero =>
    intro fuel₂ value h1 _
    have hv : ¬ 127 < value := by omega
    rw [encodeVarintAuxN_not_gt hv, encodeVarintAuxN_not_gt hv]
  | succ n ih =>
    intro fuel₂ value h1 h2
    by_cases hv : 127 < value
    · obtain ⟨m, rfl⟩ : ∃ m, fuel₂ = m + 1 := ⟨fuel₂ - 1, by omega⟩
      simp only [encodeVarintAuxN, if_pos hv]
      have hd : (value / 128).toNat ≤ n := by omega
      have hd' : (value / 128).toNat ≤ m := by omega
      rw [ih m (value / 128) hd hd']
    · rw [encodeVarintAuxN_not_gt hv, encodeVarintAuxN_not_gt hv]

/-- The loop equation of `_encode_varint`, exactly as in the source. -/
theorem encodeVarint_unfold (value : Int) :
    encodeVarint value =
      if 127 < value then
        ((value % 128).toNat + 128) :: encodeVarint (value / 128)
      else
        [(value % 128).toNat] := by
  by_cases hv : 127 < value
  · rw [if_pos hv]
    unfold encodeVarint
    obtain ⟨k, hk⟩ : ∃ k, value.toNat = k + 1 := ⟨value.toNat - 1, by omega⟩
    rw [hk]
    simp only [encodeVarintAuxN, if_pos hv]
    congr 1
    exact encodeVarintAuxN_fuel_irrel k (value / 128).toNat (value / 128)
      (by omega) (le_refl _)
  · rw [if_neg hv]
    unfold encodeVarint
    exact encodeVarintAuxN_not_gt hv _

/-- A small non-negative value is a single varint byte. -/
theorem encodeVarint_small (v : Int) (h0 : 0 ≤ v) (h1 : v ≤ 127) :
    encodeVarint v = [v.toNat] := by
  rw [encodeVarint_unfold, if_neg (by omega)]
  congr 1
  omega

/-- Decoding inverts encoding for non-negative values. -/
theorem decode_encodeVarint (n : Nat) :
    decodeVarintAux (encodeVarint (n : Int)) = n := by
  induction n using Nat.strong_induction_on with
  | _ n ih =>
    rw [encodeVarint_unfold]
    by_cases h : 127 < (n : Int)
    · rw [if_pos h]
      have hn : 127 < n := by exact_mod_cast h
      have hcast : ((n : Int) / 128) = ((n / 128 : Nat) : Int) := by omega
      simp only [decodeVarintAux]
      rw [hcast, ih (n / 128) (by omega)]
      omega
    · rw [if_neg h]
      simp only [decodeVarintAux]
      omega

/-- Shape of the encoding of a non-negative value: continuation bytes
(high bit set) followed by one final byte with the high bit clear. -/
theorem encodeVarint_shape (n : Nat) :
    ∃ contBytes lastByte, encodeVarint (n : Int) = contBytes ++ [lastByte]
      ∧ (∀ b ∈ contBytes, 128 ≤ b ∧ b ≤ 255) ∧ lastByte ≤ 127 := by
  induction n using Nat.strong_induction_on with
  | _ n ih =>
    rw [encodeVarint_unfold]
    by_cases h : 127 < (n : Int)
    · rw [if_pos h]
      have hn : 127 < n := by exact_mod_cast h
      have hcast : ((n : Int) / 128) = ((n / 128 : Nat) : Int) := by omega
      rw [hcast]
      obtain ⟨contBytes, lastByte, heq, hcont, hlast⟩ := ih (n / 128) (by omega)
      refine ⟨(((n : Int) % 128).toNat + 128) :: contBytes, lastByte, ?_, ?_, hlast⟩
      · rw [heq]
        rfl
      · intro b hb
        rcases List.mem_cons.mp hb with hb' | hb'
        · omega
        · exact hcont b hb'
    · rw [if_neg h]
      exact ⟨[], ((n : Int) % 128).toNat, rfl, by simp, by omega⟩

/-- C9: `_encode_varint` on a non-negative integer is the standard
base-128 little-endian-group varint — low 7-bit groups first, the
continuation bit set on every byte but the last, and the byte sequence
decodes back to the value. -/
theorem varint_std_base128 (n : Nat) :
    decodeVarintAux (encodeVarint (n : Int)) = n
    ∧ ∃ contBytes lastByte, encodeVarint (n : Int) = contBytes ++ [lastByte]
      ∧ (∀ b ∈ contBytes, 128 ≤ b ∧ b ≤ 255) ∧ lastByte ≤ 127 :=
  ⟨decode_encodeVarint n, encodeVarint_shape n⟩

/-- Witness for C9 at the concrete value 300. -/
theorem varint_std_base128_witness :
    decodeVarintAux (encodeVarint ((300 : Nat) : Int)) = 300
    ∧ ∃ contBytes lastByte,
        encodeVarint ((300 : Nat) : Int) = contBytes ++ [lastByte]
        ∧ (∀ b ∈ contBytes, 128 ≤ b ∧ b ≤ 255) ∧ lastByte ≤ 127 :=
  varint_std_base128 300

theorem ratTrunc_zero_mul : ratTrunc ((0 : ℚ) * 10000000) = 0 := by
  norm_num [ratTrunc]

theorem packInt32LE_zero : packInt32LE 0 = [0, 0, 0, 0] := rfl

theorem encodeVarint_24 : encodeVarint 24 = [24] := rfl

theorem encodeVarint_12 : encodeVarint 12 = [12] := rfl

/-- C10: `_encode_varint` on a negative value emits exactly one byte,
`value & 0x7F` (the loop guard `value > 127` fails immediately), so the
byte does not decode back to the value; through `encode_pli` a negative
altitude therefore reaches the wire as that single malformed byte. -/
theorem varint_negative (v : Int) (hv : v < 0) :
    encodeVarint v = [(v % 128).toNat]
    ∧ ((decodeVarintAux (encodeVarint v) : Nat) : Int) ≠ v
    ∧ encode_pli 0 0 v 0 0
      = some [0x2a, 12, 0x0d, 0, 0, 0, 0, 0x15, 0, 0, 0, 0, 24,
          (v % 128).toNat] := by
  have h1 : encodeVarint v = [(v % 128).toNat] := by
    rw [encodeVarint_unfold, if_neg (by omega)]
  refine ⟨h1, ?_, ?_⟩
  · rw [h1]
    simp only [decodeVarintAux]
    omega
  · simp only [encode_pli, ratTrunc_zero_mul]
    rw [if_neg (by omega), if_neg (by omega)]
    rw [if_pos (show v ≠ 0 by omega)]
    rw [if_neg (show ¬ (0 : Int) < 0 by omega)]
    rw [if_neg (show ¬ (0 : Int) < 0 by omega)]
    rw [h1, packInt32LE_zero, encodeVarint_24]
    simp [encodeVarint_12]

/-- Witness for C10 at the concrete value `-1`. -/
theorem varint_negative_witness :
    encodeVarint (-1) = [((-1 : Int) % 128).toNat]
    ∧ ((decodeVarintAux (encodeVarint (-1)) : Nat) : Int) ≠ -1
    ∧ encode_pli 0 0 (-1) 0 0
      = some [0x2a, 12, 0x0d, 0, 0, 0, 0, 0x15, 0, 0, 0, 0, 24,
          ((-1 : Int) % 128).toNat] :=
  varint_negative (-1) (by norm_num)

theorem tmod_bounds (a : Int) {b : Int} (hb : 0 < b) :
    -b < a.tmod b ∧ a.tmod b < b := by
  constructor
  · rcases le_or_lt 0 a with ha | ha
    · have := Int.tmod_nonneg b ha
      omega
    · have h2 : (-a).tmod b < b := Int.tmod_lt_of_pos (-a) hb
      have h3 : (-a).tmod b = -(a.tmod b) := by
        have h4 := Int.tdiv_add_tmod a b
        have h5 := Int.tdiv_add_tmod (-a) b
        rw [Int.neg_tdiv, mul_neg] at h5
        linarith
      omega
  · exact Int.tmod_lt_of_pos a hb

/-- Truncation toward zero moves a rational by strictly less than one. -/
theorem ratTrunc_abs_lt (q : ℚ) : |q - (ratTrunc q : ℚ)| < 1 := by
  have hdZ : (0 : Int) < (q.den : Int) := by exact_mod_cast q.den_pos
  have key : (q.den : Int) * Int.tdiv q.num (q.den : Int)
      + Int.tmod q.num (q.den : Int) = q.num :=
    Int.tdiv_add_tmod q.num (q.den : Int)
  have hmb := tmod_bounds q.num hdZ
  have hdQ : (0 : ℚ) < (q.den : ℚ) := by exact_mod_cast q.den_pos
  have heq : q - (ratTrunc q : ℚ)
      = (Int.tmod q.num (q.den : Int) : ℚ) / (q.den : ℚ) := by
    rw [ratTrunc]
    have keyQ : ((q.den : Int) : ℚ) * (Int.tdiv q.num (q.den : Int) : ℚ)
        + (Int.tmod q.num (q.den : Int) : ℚ) = (q.num : ℚ) := by
      exact_mod_cast key
    have hq : (q.num : ℚ) / (q.den : ℚ) = q := Rat.num_div_den q
    have hnum : (q.num : ℚ) = q * (q.den : ℚ) :=
      (div_eq_iff (ne_of_gt hdQ)).mp hq
    push_cast at keyQ
    rw [eq_div_iff (ne_of_gt hdQ)]
    nlinarith [keyQ, hnum]
  rw [heq, abs_div, abs_of_pos hdQ, div_lt_one hdQ]
  have habs : |Int.tmod q.num (q.den : Int)| < (q.den : Int) :=
    abs_lt.mpr ⟨hmb.1, hmb.2⟩
  exact_mod_cast habs

/-- The fixed-point round trip loses strictly less than `1e-7`. -/
theorem fixed32_bound (x : ℚ) :
    |x - (ratTrunc (x * 10000000) : ℚ) / 10000000| < 1 / 10000000 := by
  have h := ratTrunc_abs_lt (x * 10000000)
  have h7 : (0 : ℚ) < 10000000 := by norm_num
  have heq : x - (ratTrunc (x * 10000000) : ℚ) / 10000000
      = (x * 10000000 - (ratTrunc (x * 10000000) : ℚ)) / 10000000 := by
    ring
  rw [heq, abs_div, abs_of_pos h7, div_lt_div_iff_of_pos_right h7]
  exact h

/-- Unpacking undoes `struct.pack` on the signed 32-bit range. -/
theorem unpack_packInt32LE (x : Int) (h1 : -2147483648 ≤ x)
    (h2 : x ≤ 2147483647) : unpackInt32LE (packInt32LE x) = x := by
  simp only [packInt32LE, unpackInt32LE]
  split_ifs with h
  · omega
  · omega

/-- C8: for latitude/longitude whose fixed-point images fit the signed
32-bit range, the PLI stores `int(value * 1e7)` (truncation toward zero)
as a little-endian 4-byte signed integer; unpacking recovers the stored
integer exactly, and dividing by `1e7` recovers the coordinate within
`1e-7` degrees. -/
theorem pli_fixed32_roundtrip (lat lon : ℚ) (alt speed course : Int)
    (hlat1 : -2147483648 ≤ ratTrunc (lat * 10000000))
    (hlat2 : ratTrunc (lat * 10000000) ≤ 2147483647)
    (hlon1 : -2147483648 ≤ ratTrunc (lon * 10000000))
    (hlon2 : ratTrunc (lon * 10000000) ≤ 2147483647) :
    ∃ pli_msg rest,
      encode_pli lat lon alt speed course
        = some ([0x2a] ++ encodeVarint (pli_msg.length : Int) ++ pli_msg)
      ∧ pli_msg = [0x0d] ++ packInt32LE (ratTrunc (lat * 10000000))
          ++ [0x15] ++ packInt32LE (ratTrunc (lon * 10000000)) ++ rest
      ∧ unpackInt32LE (packInt32LE (ratTrunc (lat * 10000000)))
          = ratTrunc (lat * 10000000)
      ∧ unpackInt32LE (packInt32LE (ratTrunc (lon * 10000000)))
          = ratTrunc (lon * 10000000)
      ∧ |lat - (ratTrunc (lat * 10000000) : ℚ) / 10000000| < 1 / 10000000
      ∧ |lon - (ratTrunc (lon * 10000000) : ℚ) / 10000000| < 1 / 10000000 := by
  simp only [encode_pli]
  rw [if_neg (by omega), if_neg (by omega)]
  refine ⟨_, (if alt ≠ 0 then encodeVarint 24 ++ encodeVarint alt else [])
      ++ (if 0 < speed then encodeVarint 32 ++ encodeVarint speed else [])
      ++ (if 0 < course then encodeVarint 40 ++ encodeVarint course else []),
    rfl, ?_, unpack_packInt32LE _ hlat1 hlat2, unpack_packInt32LE _ hlon1 hlon2,
    fixed32_bound lat, fixed32_bound lon⟩
  simp [List.append_assoc]

/-- Witness for C8 at latitude 34.05 and longitude −118.25. -/
theorem pli_fixed32_roundtrip_witness :
    ∃ pli_msg rest,
      encode_pli (681 / 20) (-473 / 4) 100 0 0
        = some ([0x2a] ++ encodeVarint (pli_msg.length : Int) ++ pli_msg)
      ∧ pli_msg = [0x0d] ++ packInt32LE (ratTrunc ((681 / 20 : ℚ) * 10000000))
          ++ [0x15] ++ packInt32LE (ratTrunc ((-473 / 4 : ℚ) * 10000000)) ++ rest
      ∧ unpackInt32LE (packInt32LE (ratTrunc ((681 / 20 : ℚ) * 10000000)))
          = ratTrunc ((681 / 20 : ℚ) * 10000000)
      ∧ unpackInt32LE (packInt32LE (ratTrunc ((-473 / 4 : ℚ) * 10000000)))
          = ratTrunc ((-473 / 4 : ℚ) * 10000000)
      ∧ |(681 / 20 : ℚ) - (ratTrunc ((681 / 20 : ℚ) * 10000000) : ℚ) / 10000000|
          < 1 / 10000000
      ∧ |(-473 / 4 : ℚ) - (ratTrunc ((-473 / 4 : ℚ) * 10000000) : ℚ) / 10000000|
          < 1 / 10000000 :=
  pli_fixed32_roundtrip (681 / 20) (-473 / 4) 100 0 0
    (by norm_num [ratTrunc]) (by norm_num [ratTrunc])
    (by norm_num [ratTrunc]) (by norm_num [ratTrunc])

/-- The code-side role lookup agrees with the spec-side table. -/
theorem memberRoles_getD_int (r : String) :
    (MEMBER_ROLES r).getD 1 = (roleEnumSpec r : Int) := by
  by_cases h1 : r = "Team Member"
  · subst h1; rfl
  by_cases h2 : r = "Team Lead"
  · subst h2; rfl
  by_cases h3 : r = "HQ"
  · subst h3; rfl
  by_cases h4 : r = "Sniper"
  · subst h4; rfl
  by_cases h5 : r = "Medic"
  · subst h5; rfl
  by_cases h6 : r = "Forward Observer"
  · subst h6; rfl
  by_cases h7 : r = "RTO"
  · subst h7; rfl
  by_cases h8 : r = "K9"
  · subst h8; rfl
  unfold MEMBER_ROLES roleEnumSpec
  rw [if_neg h1, if_neg h2, if_neg h3, if_neg h4, if_neg h5, if_neg h6,
    if_neg h7, if_neg h8, if_neg h1, if_neg h2, if_neg h3, if_neg h4,
    if_neg h5, if_neg h6, if_neg h7, if_neg h8]
  rfl

theorem roleEnumSpec_bounds (r : String) :
    1 ≤ roleEnumSpec r ∧ roleEnumSpec r ≤ 8 := by
  by_cases h1 : r = "Team Member"
  · subst h1; decide
  by_cases h2 : r = "Team Lead"
  · subst h2; decide
  by_cases h3 : r = "HQ"
  · subst h3; decide
  by_cases h4 : r = "Sniper"
  · subst h4; decide
  by_cases h5 : r = "Medic"
  · subst h5; decide
  by_cases h6 : r = "Forward Observer"
  · subst h6; decide
  by_cases h7 : r = "RTO"
  · subst h7; decide
  by_cases h8 : r = "K9"
  · subst h8; decide
  unfold roleEnumSpec
  rw [if_neg h1, if_neg h2, if_neg h3, if_neg h4, if_neg h5, if_neg h6,
    if_neg h7, if_neg h8]
  decide

/-- The code-side team lookup agrees with the spec-side table. -/
theorem teamColors_getD_int (t : String) :
    (TEAM_COLORS t).getD 10 = (teamEnumSpec t : Int) := by
  by_cases h1 : t = "White"
  · subst h1; rfl
  by_cases h2 : t = "Yellow"
  · subst h2; rfl
  by_cases h3 : t = "Orange"
  · subst h3; rfl
  by_cases h4 : t = "Magenta"
  · subst h4; rfl
  by_cases h5 : t = "Red"
  · subst h5; rfl
  by_cases h6 : t = "Maroon"
  · subst h6; rfl
  by_cases h7 : t = "Purple"
  · subst h7; rfl
  by_cases h8 : t = "Dark Blue"
  · subst h8; rfl
  by_cases h9 : t = "Blue"
  · subst h9; rfl
  by_cases h10 : t = "Cyan"
  · subst h10; rfl
  by_cases h11 : t = "Teal"
  · subst h11; rfl
  by_cases h12 : t = "Green"
  · subst h12; rfl
  by_cases h13 : t = "Dark Green"
  · subst h13; rfl
  by_cases h14 : t = "Brown"
  · subst h14; rfl
  unfold TEAM_COLORS teamEnumSpec
  rw [if_neg h1, if_neg h2, if_neg h3, if_neg h4, if_neg h5, if_neg h6,
    if_neg h7, if_neg h8, if_neg h9, if_neg h10, if_neg h11, if_neg h12,
    if_neg h13, if_neg h14, if_neg h1, if_neg h2, if_neg h3, if_neg h4,
    if_neg h5, if_neg h6, if_neg h7, if_neg h8, if_neg h9, if_neg h10,
    if_neg h11, if_neg h12, if_neg h13, if_neg h14]
  rfl

theorem teamEnumSpec_bounds (t : String) :
    1 ≤ teamEnumSpec t ∧ teamEnumSpec t ≤ 14 := by
  by_cases h1 : t = "White"
  · subst h1; decide
  by_cases h2 : t = "Yellow"
  · subst h2; decide
  by_cases h3 : t = "Orange"
  · subst h3; decide
  by_cases h4 : t = "Magenta"
  · subst h4; decide
  by_cases h5 : t = "Red"
  · subst h5; decide
  by_cases h6 : t = "Maroon"
  · subst h6; decide
  by_cases h7 : t = "Purple"
  · subst h7; decide
  by_cases h8 : t = "Dark Blue"
  · subst h8; decide
  by_cases h9 : t = "Blue"
  · subst h9; decide
  by_cases h10 : t = "Cyan"
  · subst h10; decide
  by_cases h11 : t = "Teal"
  · subst h11; decide
  by_cases h12 : t = "Green"
  · subst h12; decide
  by_cases h13 : t = "Dark Green"
  · subst h13; decide
  by_cases h14 : t = "Brown"
  · subst h14; decide
  unfold teamEnumSpec
  rw [if_neg h1, if_neg h2, if_neg h3, if_neg h4, if_neg h5, if_neg h6,
    if_neg h7, if_neg h8, if_neg h9, if_neg h10, if_neg h11, if_neg h12,
    if_neg h13, if_neg h14]
  decide

theorem encodeVarint_int4 : encodeVarint (4 : Int) = [4] := rfl

/-- C7: the group sub-record encodes role and team exactly per the fixed
tables (with unknown names defaulting to Team Member = 1 and Cyan = 10);
in particular "Sniper" encodes 4 and "Red" encodes 5. -/
theorem group_enum_tables (doc : CotDoc) (g : GroupElem) (role team : String)
    (h1 : doc.group = some g) (h2 : g.role = some role)
    (h3 : g.name = some team) :
    groupPart doc = [0x1a, 4, 0x08, roleEnumSpec role, 0x10, teamEnumSpec team]
    ∧ roleEnumSpec "Sniper" = 4 ∧ teamEnumSpec "Red" = 5
    ∧ roleEnumSpec "Not A Role" = 1 ∧ teamEnumSpec "Not A Team" = 10 := by
  refine ⟨?_, rfl, rfl, rfl, rfl⟩
  simp only [groupPart, h1, h2, h3, Option.getD_some]
  rw [memberRoles_getD_int, teamColors_getD_int]
  have hrb := roleEnumSpec_bounds role
  have htb := teamEnumSpec_bounds team
  rw [if_pos (show (0 : Int) < (roleEnumSpec role : Int) by
    exact_mod_cast Nat.lt_of_lt_of_le Nat.zero_lt_one hrb.1)]
  rw [if_pos (show (0 : Int) < (teamEnumSpec team : Int) by
    exact_mod_cast Nat.lt_of_lt_of_le Nat.zero_lt_one htb.1)]
  rw [encodeVarint_small _ (by omega) (by omega)]
  rw [encodeVarint_small _ (by omega) (by omega)]
  simp [encodeVarint_int4]

/-- Witness for C7 on a document with `role="Sniper" name="Red"`. -/
theorem group_enum_tables_witness :
    groupPart sniperRedCot
      = [0x1a, 4, 0x08, roleEnumSpec "Sniper", 0x10, teamEnumSpec "Red"]
    ∧ roleEnumSpec "Sniper" = 4 ∧ teamEnumSpec "Red" = 5
    ∧ roleEnumSpec "Not A Role" = 1 ∧ teamEnumSpec "Not A Team" = 10 :=
  group_enum_tables sniperRedCot ⟨some "Sniper", some "Red"⟩ "Sniper" "Red"
    rfl rfl rfl

/-- The fallback payload evaluates to the 12-byte PLI-only record. -/
theorem fallbackResult_eq : fallbackResult = Except.ok fallbackBytes := by
  with_unfolding_all rfl

theorem fallbackBytes_ne_nil : fallbackBytes ≠ [] := by decide

/-- A successful `encode_pli` is a tagged, length-prefixed field-5 record. -/
theorem encode_pli_some_form (lat lon : ℚ) (alt speed course : Int)
    (bs : List Nat) (h : encode_pli lat lon alt speed course = some bs) :
    ∃ body, bs = [0x2a] ++ encodeVarint (body.length : Int) ++ body := by
  simp only [encode_pli] at h
  split at h
  · exact Option.noConfusion h
  · split at h
    · exact Option.noConfusion h
    · exact ⟨_, (Option.some.inj h).symm⟩

/-- When the point element is present, a successful point/track block is
a field-5 record. -/
theorem pliPartE_ok_form (doc : CotDoc) (p : PointElem) (bs : List Nat)
    (h1 : doc.point = some p) (h2 : pliPartE doc = Except.ok bs) :
    ∃ body, bs = [0x2a] ++ encodeVarint (body.length : Int) ++ body := by
  simp only [pliPartE, h1] at h2
  cases hlat : floatAttrE p.lat with
  | error e => simp [hlat] at h2
  | ok lat =>
    cases hlon : floatAttrE p.lon with
    | error e => simp [hlat, hlon] at h2
    | ok lon =>
      cases halt : altOf p with
      | error e => simp [hlat, hlon, halt] at h2
      | ok alt =>
        cases hspeed : speedOf doc.track with
        | error e => simp [hlat, hlon, halt, hspeed] at h2
        | ok speed =>
          cases hcourse : courseOf doc.track with
          | error e => simp [hlat, hlon, halt, hspeed, hcourse] at h2
          | ok course =>
            cases henc : encode_pli lat lon alt speed course with
            | none => simp [hlat, hlon, halt, hspeed, hcourse, henc] at h2
            | some pd =>
              simp only [hlat, hlon, halt, hspeed, hcourse, henc,
                Except.ok.injEq] at h2
              obtain ⟨body, hb⟩ :=
                encode_pli_some_form lat lon alt speed course pd henc
              exact ⟨body, by rw [← h2, hb]⟩

/-- C1 counterexample: a document that parses but has no point element
(input string `"<event/>"`) produces EMPTY output — no PLI sub-record at
all, contradicting "always returns a non-empty byte sequence containing
a PLI sub-record". -/
theorem encode_no_point_no_pli :
    encode_full_packet (some emptyCot) false = Except.ok []
    ∧ ¬ hasPliRecord [] := by
  refine ⟨rfl, ?_⟩
  rintro ⟨pre, body, suf, h⟩
  simp at h

/-- C1 (amended): when the XML parse fails, or the parsed document
contains a point element, the result is non-empty and contains a
top-level field-5 PLI record (degenerate `(0,0)` on the fallback path);
a parseable document without a point element is not covered. -/
theorem encode_pli_when_point_or_parsefail (parsed : Option CotDoc)
    (compress : Bool)
    (h : parsed = none ∨ ∃ doc p, parsed = some doc ∧ doc.point = some p) :
    ∃ bs, encode_full_packet parsed compress = Except.ok bs
      ∧ bs ≠ [] ∧ hasPliRecord bs := by
  have hfbP : hasPliRecord fallbackBytes :=
    ⟨[], [0x0d, 0, 0, 0, 0, 0x15, 0, 0, 0, 0], [], rfl⟩
  rcases h with rfl | ⟨doc, p, rfl, hp⟩
  · exact ⟨fallbackBytes, fallbackResult_eq, fallbackBytes_ne_nil, hfbP⟩
  · cases hbody : bodyE doc compress with
    | error e =>
      refine ⟨fallbackBytes, ?_, fallbackBytes_ne_nil, hfbP⟩
      simp only [encode_full_packet, hbody]
      exact fallbackResult_eq
    | ok bs =>
      have hbody' := hbody
      simp only [bodyE] at hbody'
      cases hpli : pliPartE doc with
      | error e => rw [hpli] at hbody'; exact Except.noConfusion hbody'
      | ok pli_data =>
        rw [hpli] at hbody'
        obtain ⟨body, hb⟩ := pliPartE_ok_form doc p pli_data hp hpli
        have hbs : bs = ((if compress then [0x08, 0x01] else [])
            ++ contactPart doc ++ groupPart doc ++ statusPart doc)
            ++ pli_data ++ chatPart doc := (Except.ok.inj hbody').symm
        refine ⟨bs, by simp only [encode_full_packet, hbody], ?_, ?_⟩
        · rw [hbs, hb]
          simp
        · rw [hbs, hb]
          refine ⟨(if compress then [0x08, 0x01] else [])
              ++ contactPart doc ++ groupPart doc ++ statusPart doc,
            body, chatPart doc, ?_⟩
          simp [List.append_assoc]

/-- Witness for (amended) C1 on the parse-failure input. -/
theorem encode_pli_when_point_or_parsefail_witness :
    ∃ bs, encode_full_packet none false = Except.ok bs
      ∧ bs ≠ [] ∧ hasPliRecord bs :=
  encode_pli_when_point_or_parsefail none false (Or.inl rfl)

/-- C2: encoding never returns an error value (no exception escapes),
and whenever the body of the `try` block raises, the result is exactly
the fallback payload `encode_pli(0.0, 0.0)` with no other sub-records. -/
theorem encode_never_raises (parsed : Option CotDoc) (compress : Bool) :
    (∃ bs, encode_full_packet parsed compress = Except.ok bs)
    ∧ (∀ doc, parsed = some doc → bodyE doc compress = Except.error () →
        encode_full_packet parsed compress = Except.ok fallbackBytes) := by
  constructor
  · cases parsed with
    | none => exact ⟨fallbackBytes, fallbackResult_eq⟩
    | some doc =>
      cases hbody : bodyE doc compress with
      | ok bs => exact ⟨bs, by simp only [encode_full_packet, hbody]⟩
      | error e =>
        refine ⟨fallbackBytes, ?_⟩
        simp only [encode_full_packet, hbody]
        exact fallbackResult_eq
  · intro doc hd herr
    subst hd
    simp only [encode_full_packet, herr]
    exact fallbackResult_eq

/-- Witness for C2: the non-numeric-latitude document makes the body
raise, and the result is the fallback payload. -/
theorem encode_never_raises_witness :
    encode_full_packet (some badLatCot) false = Except.ok fallbackBytes :=
  (encode_never_raises (some badLatCot) false).2 badLatCot rfl rfl

/-- C3 counterexample: with an intact contact element, a non-numeric
`lat` does NOT merely default that field — the whole packet collapses to
the fallback PLI-only payload, dropping the contact sub-record, so the
output differs from the output for the same document with `lat` absent. -/
theorem nonnumeric_lat_not_local :
    encode_full_packet (some badLatCot) false = Except.ok fallbackBytes
    ∧ encode_full_packet (some latAbsentCot) false
        = Except.ok [0x12, 3, 0x0a, 1, 65,
            0x2a, 0x0a, 0x0d, 0, 0, 0, 0, 0x15, 0x80, 0x96, 0x98, 0]
    ∧ encode_full_packet (some badLatCot) false
        ≠ encode_full_packet (some latAbsentCot) false := by
  have hA : encode_full_packet (some badLatCot) false
      = Except.ok fallbackBytes := by
    with_unfolding_all rfl
  have hB : encode_full_packet (some latAbsentCot) false
      = Except.ok [0x12, 3, 0x0a, 1, 65,
          0x2a, 0x0a, 0x0d, 0, 0, 0, 0, 0x15, 0x80, 0x96, 0x98, 0] := by
    with_unfolding_all rfl
  refine ⟨hA, hB, ?_⟩
  rw [hA, hB]
  intro h
  exact (by decide : fallbackBytes ≠ [0x12, 3, 0x0a, 1, 65,
    0x2a, 0x0a, 0x0d, 0, 0, 0, 0, 0x15, 0x80, 0x96, 0x98, 0])
    (Except.ok.inj h)

/-- A raised point/track block makes the whole encode return the
fallback payload. -/
theorem fallback_of_pliPartE_error (doc : CotDoc) (compress : Bool)
    (h : pliPartE doc = Except.error ()) :
    encode_full_packet (some doc) compress = Except.ok fallbackBytes := by
  have hbody : bodyE doc compress = Except.error () := by
    simp only [bodyE, h]
  simp only [encode_full_packet, hbody]
  exact fallbackResult_eq

theorem pliPartE_error_of_lat (doc : CotDoc) (p : PointElem) (s : String)
    (h1 : doc.point = some p) (h2 : p.lat = some s)
    (h3 : pyFloat s = none) : pliPartE doc = Except.error () := by
  simp only [pliPartE, h1, h2, floatAttrE, h3]

theorem pliPartE_error_of_lon (doc : CotDoc) (p : PointElem) (s : String)
    (h1 : doc.point = some p) (h2 : p.lon = some s)
    (h3 : pyFloat s = none) : pliPartE doc = Except.error () := by
  simp only [pliPartE, h1]
  cases hlat : floatAttrE p.lat with
  | error e => simp [hlat]
  | ok lat => simp [hlat, h2, floatAttrE, h3]

theorem pliPartE_error_of_alt (doc : CotDoc) (p : PointElem)
    (h1 : doc.point = some p) (halt : altOf p = Except.error ()) :
    pliPartE doc = Except.error () := by
  simp only [pliPartE, h1]
  cases hlat : floatAttrE p.lat with
  | error e => simp [hlat]
  | ok lat =>
    cases hlon : floatAttrE p.lon with
    | error e => simp [hlat, hlon]
    | ok lon => simp [hlat, hlon, halt]

theorem altOf_error_of_hae (p : PointElem) (s : String)
    (h2 : p.hae = some s) (hs : s ≠ "") (h3 : pyFloat s = none) :
    altOf p = Except.error () := by
  simp [altOf, h2, truthy, hs, intFloatE, h3]

theorem altOf_error_of_le (p : PointElem) (s : String)
    (hhae : truthy p.hae = false) (h2 : p.le = some s) (hs : s ≠ "")
    (h3 : pyFloat s = none) : altOf p = Except.error () := by
  simp only [altOf, hhae]
  simp [h2, truthy, hs, intFloatE, h3]

theorem pliPartE_error_of_speed (doc : CotDoc) (p : PointElem)
    (tr : TrackElem) (s : String) (h1 : doc.point = some p)
    (h2 : doc.track = some tr) (h3 : tr.speed = some s) (hs : s ≠ "")
    (h4 : pyFloat s = none) : pliPartE doc = Except.error () := by
  have hsp : speedOf doc.track = Except.error () := by
    simp [speedOf, h2, h3, truthy, hs, intFloatE, h4]
  simp only [pliPartE, h1]
  cases hlat : floatAttrE p.lat with
  | error e => simp [hlat]
  | ok lat =>
    cases hlon : floatAttrE p.lon with
    | error e => simp [hlat, hlon]
    | ok lon =>
      cases halt : altOf p with
      | error e => simp [hlat, hlon, halt]
      | ok alt => simp [hlat, hlon, halt, hsp]

theorem pliPartE_error_of_course (doc : CotDoc) (p : PointElem)
    (tr : TrackElem) (s : String) (h1 : doc.point = some p)
    (h2 : doc.track = some tr) (h3 : tr.course = some s) (hs : s ≠ "")
    (h4 : pyFloat s = none) : pliPartE doc = Except.error () := by
  have hco : courseOf doc.track = Except.error () := by
    simp [courseOf, h2, h3, truthy, hs, intFloatE, h4]
  simp only [pliPartE, h1]
  cases hlat : floatAttrE p.lat with
  | error e => simp [hlat]
  | ok lat =>
    cases hlon : floatAttrE p.lon with
    | error e => simp [hlat, hlon]
    | ok lon =>
      cases halt : altOf p with
      | error e => simp [hlat, hlon, halt]
      | ok alt =>
        cases hspa : speedOf doc.track with
        | error e => simp [hlat, hlon, halt, hspa]
        | ok speed => simp [hlat, hlon, halt, hspa, hco]

/-- C3 (amended): only the battery field is handled locally — a
non-numeric battery merely drops the status sub-record, leaving the rest
of the output as if the status element were absent.  Each of the other
numeric attributes instead aborts the whole encode to the fallback
PLI-only payload whenever the code consults it: `lat`/`lon` whenever
present, `hae` when non-empty, `le` when non-empty and `hae` is
absent/empty, and `speed`/`course` when non-empty on a document whose
point element is present. -/
theorem nonnumeric_field_handling :
    (∀ (doc : CotDoc) (compress : Bool) (st : StatusElem) (b : String),
      doc.status = some st → st.battery = some b → pyIntStr b = none →
      encode_full_packet (some doc) compress
        = encode_full_packet (some { doc with status := none }) compress)
    ∧ (∀ (doc : CotDoc) (compress : Bool) (p : PointElem) (s : String),
      doc.point = some p → p.lat = some s → pyFloat s = none →
      encode_full_packet (some doc) compress = Except.ok fallbackBytes)
    ∧ (∀ (doc : CotDoc) (compress : Bool) (p : PointElem) (s : String),
      doc.point = some p → p.lon = some s → pyFloat s = none →
      encode_full_packet (some doc) compress = Except.ok fallbackBytes)
    ∧ (∀ (doc : CotDoc) (compress : Bool) (p : PointElem) (s : String),
      doc.point = some p → p.hae = some s → s ≠ "" → pyFloat s = none →
      encode_full_packet (some doc) compress = Except.ok fallbackBytes)
    ∧ (∀ (doc : CotDoc) (compress : Bool) (p : PointElem) (s : String),
      doc.point = some p → truthy p.hae = false → p.le = some s →
      s ≠ "" → pyFloat s = none →
      encode_full_packet (some doc) compress = Except.ok fallbackBytes)
    ∧ (∀ (doc : CotDoc) (compress : Bool) (p : PointElem) (tr : TrackElem)
        (s : String),
      doc.point = some p → doc.track = some tr → tr.speed = some s →
      s ≠ "" → pyFloat s = none →
      encode_full_packet (some doc) compress = Except.ok fallbackBytes)
    ∧ (∀ (doc : CotDoc) (compress : Bool) (p : PointElem) (tr : TrackElem)
        (s : String),
      doc.point = some p → doc.track = some tr → tr.course = some s →
      s ≠ "" → pyFloat s = none →
      encode_full_packet (some doc) compress = Except.ok fallbackBytes) := by
  refine ⟨?_, ?_, ?_, ?_, ?_, ?_, ?_⟩
  · intro doc compress st b h1 h2 h3
    have hstat : statusPart doc = [] := by
      simp only [statusPart, h1, h2, Option.getD_some, h3]
      by_cases hb : b = ""
      · subst hb
        rfl
      · simp [truthy, hb]
    have hbody : bodyE doc compress
        = bodyE { doc with status := none } compress := by
      simp only [bodyE, hstat]
      rfl
    simp only [encode_full_packet, hbody]
  · intro doc compress p s h1 h2 h3
    exact fallback_of_pliPartE_error doc compress
      (pliPartE_error_of_lat doc p s h1 h2 h3)
  · intro doc compress p s h1 h2 h3
    exact fallback_of_pliPartE_error doc compress
      (pliPartE_error_of_lon doc p s h1 h2 h3)
  · intro doc compress p s h1 h2 hs h3
    exact fallback_of_pliPartE_error doc compress
      (pliPartE_error_of_alt doc p h1 (altOf_error_of_hae p s h2 hs h3))
  · intro doc compress p s h1 hhae h2 hs h3
    exact fallback_of_pliPartE_error doc compress
      (pliPartE_error_of_alt doc p h1 (altOf_error_of_le p s hhae h2 hs h3))
  · intro doc compress p tr s h1 h2 h3 hs h4
    exact fallback_of_pliPartE_error doc compress
      (pliPartE_error_of_speed doc p tr s h1 h2 h3 hs h4)
  · intro doc compress p tr s h1 h2 h3 hs h4
    exact fallback_of_pliPartE_error doc compress
      (pliPartE_error_of_course doc p tr s h1 h2 h3 hs h4)

/-- Witness for (amended) C3: a bad battery, and a bad lat, lon, hae,
le, speed, and course, each at a concrete document. -/
theorem nonnumeric_field_handling_witness :
    encode_full_packet (some batteryBadCot) false
      = encode_full_packet (some { batteryBadCot with status := none }) false
    ∧ encode_full_packet (some badLatCot) false = Except.ok fallbackBytes
    ∧ encode_full_packet (some badLonCot) false = Except.ok fallbackBytes
    ∧ encode_full_packet (some badHaeCot) false = Except.ok fallbackBytes
    ∧ encode_full_packet (some badLeCot) false = Except.ok fallbackBytes
    ∧ encode_full_packet (some badSpeedCot) false = Except.ok fallbackBytes
    ∧ encode_full_packet (some badCourseCot) false
        = Except.ok fallbackBytes :=
  ⟨nonnumeric_field_handling.1 batteryBadCot false ⟨some "full"⟩ "full"
      rfl rfl rfl,
    nonnumeric_field_handling.2.1 badLatCot false
      ⟨some "abc", some "1", none, none⟩ "abc" rfl rfl rfl,
    nonnumeric_field_handling.2.2.1 badLonCot false
      ⟨none, some "abc", none, none⟩ "abc" rfl rfl rfl,
    nonnumeric_field_handling.2.2.2.1 badHaeCot false
      ⟨none, none, some "abc", none⟩ "abc" rfl rfl (by decide) rfl,
    nonnumeric_field_handling.2.2.2.2.1 badLeCot false
      ⟨none, none, none, some "abc"⟩ "abc" rfl rfl rfl (by decide) rfl,
    nonnumeric_field_handling.2.2.2.2.2.1 badSpeedCot false
      ⟨none, none, none, none⟩ ⟨some "abc", none⟩ "abc"
      rfl rfl rfl (by decide) rfl,
    nonnumeric_field_handling.2.2.2.2.2.2 badCourseCot false
      ⟨none, none, none, none⟩ ⟨none, some "abc"⟩ "abc"
      rfl rfl rfl (by decide) rfl⟩

/-- C4 (code bug witness): for the one-code-point message `"é"` the chat
field-1 length prefix is `1` — Python `len` of the `str` — while the
emitted UTF-8 payload is the 2 bytes `[0xC3, 0xA9]`, so the prefix does
not equal the UTF-8 byte count and the record is malformed protobuf. -/
theorem geochat_length_prefix_bug :
    encode_geochat "é" none none = [0x32, 4, 0x0a, 1, 0xc3, 0xa9]
    ∧ utf8Bytes "é" = [0xc3, 0xa9]
    ∧ "é".length = 1 :=
  ⟨rfl, rfl, rfl⟩

/-- C6: a PLI built from `hae="0"` is byte-identical, through the whole
packet, to one with no altitude attribute at all (field 3 is emitted only
when the altitude is non-zero). -/
theorem pli_alt_zero_suppression (doc : CotDoc) (p : PointElem)
    (compress : Bool) :
    encode_full_packet
        (some { doc with point := some { p with hae := some "0" } }) compress
      = encode_full_packet
          (some { doc with point := some { p with hae := none, le := none } })
          compress := by
  have halt1 : altOf { p with hae := some "0" } = Except.ok 0 := by
    with_unfolding_all rfl
  have halt2 : altOf { p with hae := none, le := none } = Except.ok 0 := rfl
  have hpli : pliPartE { doc with point := some { p with hae := some "0" } }
      = pliPartE
          { doc with point := some { p with hae := none, le := none } } := by
    simp only [pliPartE, halt1, halt2]
  have hbody : bodyE { doc with point := some { p with hae := some "0" } }
        compress
      = bodyE { doc with point := some { p with hae := none, le := none } }
        compress := by
    simp only [bodyE, hpli]
    rfl
  simp only [encode_full_packet, hbody]

theorem contactPart_shape (doc : CotDoc) (ce : ContactElem) (cs : String)
    (h1 : doc.contact = some ce) (h2 : ce.callsign = some cs)
    (h3 : cs ≠ "") : ∃ l2, contactPart doc = 0x12 :: l2 := by
  have hne : encode_contact cs none ≠ [] := by
    simp only [encode_contact]
    rw [if_pos h3]
    simp [truthy]
  refine ⟨encodeVarint ((encode_contact cs none).length : Int)
    ++ encode_contact cs none, ?_⟩
  simp only [contactPart, h1, h2, Option.getD_some]
  rw [if_pos h3, if_pos hne]
  rfl

/-- The group block for a present group element, with the source's
defaults for missing attributes. -/
theorem groupPart_eq_of_some (doc : CotDoc) (g : GroupElem)
    (h1 : doc.group = some g) :
    groupPart doc = [0x1a, 4, 0x08, roleEnumSpec (g.role.getD "Team Member"),
      0x10, teamEnumSpec (g.name.getD "Cyan")] := by
  simp only [groupPart, h1]
  rw [memberRoles_getD_int, teamColors_getD_int]
  have hrb := roleEnumSpec_bounds (g.role.getD "Team Member")
  have htb := teamEnumSpec_bounds (g.name.getD "Cyan")
  rw [if_pos (show (0 : Int) < (roleEnumSpec (g.role.getD "Team Member") : Int)
    by exact_mod_cast Nat.lt_of_lt_of_le Nat.zero_lt_one hrb.1)]
  rw [if_pos (show (0 : Int) < (teamEnumSpec (g.name.getD "Cyan") : Int)
    by exact_mod_cast Nat.lt_of_lt_of_le Nat.zero_lt_one htb.1)]
  rw [encodeVarint_small _ (by omega) (by omega)]
  rw [encodeVarint_small _ (by omega) (by omega)]
  simp [encodeVarint_int4]

theorem statusPart_eq (doc : CotDoc) (st : StatusElem) (b : String) (bv : Int)
    (h1 : doc.status = some st) (h2 : st.battery = some b)
    (h3 : pyIntStr b = some bv) :
    statusPart doc = [0x22]
      ++ encodeVarint (([0x08] ++ encodeVarint bv).length : Int)
      ++ ([0x08] ++ encodeVarint bv) := by
  have hb : b ≠ "" := by
    intro he
    rw [he, show pyIntStr "" = none from rfl] at h3
    exact Option.noConfusion h3
  simp only [statusPart, h1, h2, Option.getD_some, h3]
  simp [truthy, hb]

theorem encode_geochat_shape (m : String) (a b : Option String) :
    ∃ tail, encode_geochat m a b = 0x32 :: tail :=
  ⟨_, rfl⟩

theorem chatPart_shape (doc : CotDoc) (rem : RemarksElem) (t : String)
    (h1 : doc.remarks = some rem) (h2 : rem.text = some t) (h3 : t ≠ "") :
    ∃ l6, chatPart doc = 0x32 :: l6 := by
  obtain ⟨tail, ht⟩ := encode_geochat_shape t none
    (match doc.dest with
      | none => none
      | some dest_elem => dest_elem.callsign)
  refine ⟨tail, ?_⟩
  simp only [chatPart, h1, h2, Option.getD_some]
  simp only [truthy]
  rw [if_pos (by simp [h3])]
  exact ht

/-- C5: whenever all five sub-records are produced, their top-level tag
bytes appear in the buffer in strictly increasing field-number order
2, 3, 4, 5, 6 — and the field-1 compression flag, when requested,
precedes all of them. -/
theorem topLevel_field_order (doc : CotDoc) (compress : Bool)
    (ce : ContactElem) (cs : String) (g : GroupElem) (st : StatusElem)
    (b : String) (bv : Int) (p : PointElem) (rem : RemarksElem) (t : String)
    (pliBytes : List Nat)
    (hc1 : doc.contact = some ce) (hc2 : ce.callsign = some cs)
    (hc3 : cs ≠ "") (hg : doc.group = some g)
    (hs1 : doc.status = some st) (hs2 : st.battery = some b)
    (hs3 : pyIntStr b = some bv)
    (hp : doc.point = some p) (hpli : pliPartE doc = Except.ok pliBytes)
    (hr1 : doc.remarks = some rem) (hr2 : rem.text = some t)
    (hr3 : t ≠ "") :
    ∃ l2 l3 l4 l5 l6,
      encode_full_packet (some doc) compress
        = Except.ok ((if compress then [0x08, 0x01] else [])
            ++ (0x12 :: l2) ++ (0x1a :: l3) ++ (0x22 :: l4)
            ++ (0x2a :: l5) ++ (0x32 :: l6)) := by
  obtain ⟨l2, hl2⟩ := contactPart_shape doc ce cs hc1 hc2 hc3
  have hl3 := groupPart_eq_of_some doc g hg
  have hl4 := statusPart_eq doc st b bv hs1 hs2 hs3
  obtain ⟨body5, hb5⟩ := pliPartE_ok_form doc p pliBytes hp hpli
  obtain ⟨l6, hl6⟩ := chatPart_shape doc rem t hr1 hr2 hr3
  refine ⟨l2,
    [4, 0x08, roleEnumSpec (g.role.getD "Team Member"),
      0x10, teamEnumSpec (g.name.getD "Cyan")],
    encodeVarint (([0x08] ++ encodeVarint bv).length : Int)
      ++ ([0x08] ++ encodeVarint bv),
    encodeVarint (body5.length : Int) ++ body5,
    l6, ?_⟩
  simp only [encode_full_packet, bodyE, hpli]
  rw [hl2, hl3, hl4, hb5, hl6]
  simp [List.append_assoc]

/-- Witness for C5 on a document with all five sub-records and
`compress = true`. -/
theorem topLevel_field_order_witness :
    ∃ l2 l3 l4 l5 l6,
      encode_full_packet (some fullCot) true
        = Except.ok ((if true then [0x08, 0x01] else [])
            ++ (0x12 :: l2) ++ (0x1a :: l3) ++ (0x22 :: l4)
            ++ (0x2a :: l5) ++ (0x32 :: l6)) :=
  topLevel_field_order fullCot true ⟨some "A"⟩ "A"
    ⟨some "Team Member", some "Cyan"⟩ ⟨some "85"⟩ "85" 85
    ⟨none, none, none, none⟩ ⟨some "hi"⟩ "hi"
    [0x2a, 0x0a, 0x0d, 0, 0, 0, 0, 0x15, 0, 0, 0, 0]
    rfl rfl (by decide) rfl rfl rfl rfl rfl
    (by with_unfolding_all rfl) rfl rfl (by decide)

end MeshtasticSender
